import Mathlib

/-!
Shallow embedding of the SHL assessment recommender core
(`app/recommender.py`, `app/utils.py`, `app/evaluation/metrics.py`),
with proofs of the specified properties.

Conventions of the embedding:
* Python dict fields that may be absent or `None` become `Option` fields
  (`.get(key)` is field access, `.get(key, d)` is `Option.getD d`).
* Machine floats coming out of the external sentence-transformer model and
  out of `sklearn.metrics.pairwise.cosine_similarity` are modelled as
  rationals; the external model itself is a parameter `encode` and the
  similarity kernel a parameter `sim`, since both live outside this
  repository.  `cosine_similarity` raises when the two vectors have
  different lengths; that check is modelled explicitly and the error is
  named `DimensionMismatchError` as in the specification.
* Python `list.sort(key=..., reverse=True)` is a stable descending sort;
  it is modelled by `List.insertionSort` with the relation `simGe`
  (insertion sort is also stable, and a stable sort's output is
  determined by the key order and the input order).
* Python slicing `l[:n]` for a possibly negative `n` is `pySliceTo`.
-/

namespace SHL

/-- One catalog assessment record (a JSON object in
`data/processed/shl_assessments_detailed.json`).  Every field the core
reads is optional, mirroring `dict.get`. -/
structure Assessment where
  name : Option String
  url : Option String
  description : Option String
  job_levels : Option (List String)
  languages : Option (List String)
  duration : Option String
  test_type : Option String
  remote_testing_support : Option Bool
  adaptive_irt_support : Option Bool
  embedding : Option (List ℚ)
  deriving DecidableEq, Repr

/-- The catalog file contents: `assessments` list (possibly absent) and the
`embeddings` marker key (`none` models the key being absent; the Python
code tests `'embeddings' not in self.catalog_data`, i.e. key presence). -/
structure Catalog where
  assessments : Option (List Assessment)
  embeddings : Option Bool
  deriving DecidableEq, Repr

/-- Reading a run of decimal digit characters as a number, the way Python's
`int` does on a digit string. -/
def digitsToNat (ds : List Char) : Nat :=
  ds.foldl (fun n c => 10 * n + (c.toNat - 48)) 0

/-- `SHLRecommender._parse_duration` (recommender.py lines 75-82):
falsy input yields 0; otherwise `int` of the concatenation of every digit
character; `int('')` raises `ValueError`, caught and turned into 0. -/
def _parse_duration (s : String) : Nat :=
  if s.isEmpty then 0
  else if (s.data.filter Char.isDigit).isEmpty then 0
  else digitsToNat (s.data.filter Char.isDigit)

/-- `app/utils.py parse_duration`: same digit extraction but the falsy and
unparsable cases return `None` instead of 0. -/
def parse_duration (s : String) : Option Nat :=
  if s.isEmpty then none
  else if (s.data.filter Char.isDigit).isEmpty then none
  else some (digitsToNat (s.data.filter Char.isDigit))

/-- The error sklearn raises on incompatible vector dimensions, named as in
the specification's taxonomy. -/
inductive RecError where
  | DimensionMismatchError
  deriving DecidableEq, Repr

/-- A scored candidate: the dict `{'assessment': ..., 'similarity': ...}`
built in the recommendation loop. -/
structure Scored where
  assessment : Assessment
  similarity : ℚ
  deriving DecidableEq, Repr

/-- recommender.py line 43:
`if job_level and job_level not in (assessment.get('job_levels') or []): continue`.
The record passes unless the filter is truthy (non-`None`, non-empty) and
membership fails. -/
def jobLevelOk (job_level : Option String) (a : Assessment) : Bool :=
  match job_level with
  | none => true
  | some jl => decide (jl = "") || (a.job_levels.getD []).contains jl

/-- recommender.py lines 46-49: with `duration_max` non-`None`, reject when
the parsed duration exceeds it.  An absent duration key defaults to the
string `"0 minutes"`. -/
def durationOk (duration_max : Option Int) (a : Assessment) : Bool :=
  match duration_max with
  | none => true
  | some dmax => !decide ((_parse_duration (a.duration.getD "0 minutes") : Int) > dmax)

/-- recommender.py line 51:
`if languages and not any(lang in (assessment.get('languages') or []) for lang in languages)`. -/
def languagesOk (languages : Option (List String)) (a : Assessment) : Bool :=
  match languages with
  | none => true
  | some ls => ls.isEmpty || ls.any (fun lang => (a.languages.getD []).contains lang)

/-- recommender.py line 54:
`if test_type and test_type != assessment.get('test_type')`. -/
def testTypeOk (test_type : Option String) (a : Assessment) : Bool :=
  match test_type with
  | none => true
  | some tt => decide (tt = "") || decide (a.test_type = some tt)

/-- Conjunction of the four categorical filter checks (steps a-d of the
loop body, recommender.py lines 43-55). -/
def passes_filters (job_level : Option String) (duration_max : Option Int)
    (languages : Option (List String)) (test_type : Option String)
    (a : Assessment) : Bool :=
  jobLevelOk job_level a && durationOk duration_max a &&
    languagesOk languages a && testTypeOk test_type a

/-- A record "survives" filtering when it passes every filter and carries an
embedding (the loop skips embedding-less records, recommender.py lines 58-60). -/
def survives (job_level : Option String) (duration_max : Option Int)
    (languages : Option (List String)) (test_type : Option String)
    (a : Assessment) : Bool :=
  passes_filters job_level duration_max languages test_type a && a.embedding.isSome

/-- A surviving record whose embedding length differs from the query
vector's (the condition under which `cosine_similarity` raises). -/
def dim_mismatch (qvec : List ℚ) (a : Assessment) : Bool :=
  match a.embedding with
  | none => false
  | some emb => decide (emb.length ≠ qvec.length)

/-- The scan over the catalog (recommender.py lines 41-70): filter, skip
records without an embedding, score the rest in catalog order; the first
dimension mismatch aborts the whole call with an error. -/
def score_loop (sim : List ℚ → List ℚ → ℚ) (qvec : List ℚ)
    (job_level : Option String) (duration_max : Option Int)
    (languages : Option (List String)) (test_type : Option String) :
    List Assessment → Except RecError (List Scored)
  | [] => Except.ok []
  | a :: rest =>
    if passes_filters job_level duration_max languages test_type a then
      match a.embedding with
      | none => score_loop sim qvec job_level duration_max languages test_type rest
      | some emb =>
        if emb.length = qvec.length then
          match score_loop sim qvec job_level duration_max languages test_type rest with
          | Except.ok l => Except.ok (⟨a, sim qvec emb⟩ :: l)
          | Except.error err => Except.error err
        else Except.error RecError.DimensionMismatchError
    else score_loop sim qvec job_level duration_max languages test_type rest

/-- The sort key order of `sort(key=lambda x: x['similarity'], reverse=True)`:
`a` may come before `b` when `a`'s similarity is at least `b`'s. -/
def simGe (a b : Scored) : Prop := b.similarity ≤ a.similarity

instance : DecidableRel simGe :=
  fun a b => inferInstanceAs (Decidable (b.similarity ≤ a.similarity))

instance : IsTotal Scored simGe := ⟨fun a b => le_total b.similarity a.similarity⟩

instance : IsTrans Scored simGe := ⟨fun _ _ _ h1 h2 => le_trans h2 h1⟩

/-- Python list slicing `l[:n]` with an arbitrary integer bound: a
non-negative `n` keeps the first `n` elements, a negative `n` drops the
last `|n|` elements. -/
def pySliceTo (n : Int) (l : List α) : List α :=
  if 0 ≤ n then l.take n.toNat else l.take (l.length - (-n).toNat)

/-- `SHLRecommender.get_recommendations` (recommender.py lines 35-73):
encode the query, scan/filter/score the catalog, sort stably by descending
similarity, and slice to `top_n`. -/
def get_recommendations (encode : String → List ℚ) (sim : List ℚ → List ℚ → ℚ)
    (query : String) (job_level : Option String) (duration_max : Option Int)
    (languages : Option (List String)) (test_type : Option String)
    (top_n : Int) (catalog : Catalog) : Except RecError (List Scored) :=
  (score_loop sim (encode query) job_level duration_max languages test_type
      (catalog.assessments.getD [])).map
    (fun l => pySliceTo top_n (List.insertionSort simGe l))

/-- `get_recommendations` with the recommender's state threaded explicitly.
The method body only reads `self.catalog_data` (the loop, the sort and the
slice never assign to it or to any record it holds), so the state out is
the state in. -/
def get_recommendations_st (encode : String → List ℚ) (sim : List ℚ → List ℚ → ℚ)
    (query : String) (job_level : Option String) (duration_max : Option Int)
    (languages : Option (List String)) (test_type : Option String)
    (top_n : Int) (catalog : Catalog) : Except RecError (List Scored) × Catalog :=
  (get_recommendations encode sim query job_level duration_max languages test_type
      top_n catalog, catalog)

/-- `SHLRecommender.process_embeddings` (recommender.py lines 18-33): if the
`embeddings` key is absent, give every assessment an embedding of
`f"{name} {description}"`, set the key, and write the file back (the `Bool`
in the result records whether a write happened); otherwise do nothing.
The per-record enrichment (lines 25-27), `f"{name} {description}"` with
absent fields defaulting to the empty string: -/
def enrich (encode : String → List ℚ) (a : Assessment) : Assessment :=
  { a with embedding := some (encode ((a.name.getD "") ++ " " ++ (a.description.getD ""))) }

/-- `SHLRecommender.process_embeddings`, continued: the dispatch on the
`embeddings` key. -/
def process_embeddings (encode : String → List ℚ) (c : Catalog) : Catalog × Bool :=
  match c.embeddings with
  | some _ => (c, false)
  | none =>
    (⟨c.assessments.map (fun l => l.map (enrich encode)), some true⟩, true)

/-- `metrics.py precision_at_k` (lines 21-42): cap `k` at the number of
predictions, count the relevant items among the first `k`, divide by `k`.
The Python body indexes `relevance[i]`, which raises `IndexError` when a
prediction index is out of range; that partiality is made explicit with
`Option` (and `relevance.getD i 0` agrees with `relevance[i]` on every
in-range index). -/
def precision_at_k (relevance : List Nat) (predictions : List Nat) (k : Nat) : Option ℚ :=
  let k2 := if predictions.length < k then predictions.length else k
  let topk := predictions.take k2
  if topk.all (fun i => decide (i < relevance.length)) then
    some (((topk.filter (fun i => relevance.getD i 0 == 1)).length : ℚ) / (k2 : ℚ))
  else none

/-- The Python value found at `rec['assessment'][feature_field]`: the key
can be absent, hold a string, or hold a list of strings
(`diversity_score` only distinguishes these three shapes). -/
inductive FieldVal where
  | missing
  | str (s : String)
  | list (l : List String)
  deriving DecidableEq, Repr

/-- One iteration of the set-building loop of `metrics.py diversity_score`
(lines 71-77): `update` for a list value, `add` for a scalar, nothing when
the field is absent. -/
def addFeatures (acc : Finset String) (fv : FieldVal) : Finset String :=
  match fv with
  | .missing => acc
  | .str s => insert s acc
  | .list l => l.foldl (fun ac x => insert x ac) acc

/-- The values a `FieldVal` contributes to the unique-feature set. -/
def fieldValues (fv : FieldVal) : List String :=
  match fv with
  | .missing => []
  | .str s => [s]
  | .list l => l

/-- `metrics.py diversity_score` (lines 60-79): size of the unique-feature
set divided by the number of recommendations, 0 for an empty list. -/
def diversity_score (recs : List FieldVal) : ℚ :=
  if recs.isEmpty then 0
  else ((recs.foldl addFeatures ∅).card : ℚ) / (recs.length : ℚ)

/-- An element of the list handed to `utils.py clean_recommendations`: a
dict that may or may not carry an `"assessment"` key. -/
structure RawRec where
  assessment : Option Assessment
  deriving DecidableEq, Repr

/-- The fixed output shape built by `clean_recommendations`
(utils.py lines 27-34). -/
structure CleanedAssessment where
  url : String
  adaptive_support : String
  description : String
  duration : Nat
  remote_support : String
  test_type : List String
  deriving DecidableEq, Repr

/-- The per-entry transformation of `clean_recommendations`: field defaults,
Yes/No flags, `parse_duration(...) or 0`, and the string `test_type`
wrapped into a singleton list (an absent key defaults to `[]`). -/
def clean_one (a : Assessment) : CleanedAssessment :=
  { url := a.url.getD ""
    adaptive_support := if a.adaptive_irt_support = some true then "Yes" else "No"
    description := a.description.getD ""
    duration := (parse_duration (a.duration.getD "0")).getD 0
    remote_support := if a.remote_testing_support = some true then "Yes" else "No"
    test_type := match a.test_type with
      | some s => [s]
      | none => [] }

/-- `utils.py clean_recommendations` (lines 21-36): loop over the first 10
entries, appending the cleaned form of each entry that has an
`"assessment"` key. -/
def clean_recommendations (recs : List RawRec) : List CleanedAssessment :=
  (recs.take 10).foldl
    (fun cleaned r =>
      match r.assessment with
      | some a => cleaned ++ [clean_one a]
      | none => cleaned) []

/-! ### Fixtures used by the witness theorems -/

def enc1 : String → List ℚ := fun _ => [1]

def sim0 : List ℚ → List ℚ → ℚ := fun _ _ => 0

def sampleManager : Assessment :=
  ⟨some "Agency Manager Solution", none, none, some ["Manager"], some ["english"],
    some "30 minutes", some "cognitive", none, none, some [1]⟩

def samplePlain : Assessment :=
  ⟨some "General", none, none, none, none, none, none, none, none, some [1]⟩

def sampleNoEmb : Assessment :=
  ⟨some "NoEmb", none, none, none, none, none, none, none, none, none⟩

def sampleBadDim : Assessment :=
  ⟨some "BadDim", none, none, none, none, none, none, none, none, some [1, 2]⟩

def catPair : Catalog := ⟨some [sampleManager, samplePlain], none⟩

/-! ### Helper lemmas -/

lemma pySliceTo_sublist (n : Int) (l : List α) : (pySliceTo n l).Sublist l := by
  unfold pySliceTo
  split <;> exact List.take_sublist _ _

lemma score_loop_ok_filters {sim : List ℚ → List ℚ → ℚ} {qvec : List ℚ}
    {job_level : Option String} {duration_max : Option Int}
    {languages : Option (List String)} {test_type : Option String}
    {as : List Assessment} :
    ∀ {l : List Scored},
      score_loop sim qvec job_level duration_max languages test_type as = .ok l →
      ∀ s ∈ l, passes_filters job_level duration_max languages test_type s.assessment = true := by
  induction as with
  | nil =>
    intro l h s hs
    simp [score_loop] at h
    subst h
    simp at hs
  | cons a rest ih =>
    intro l h s hs
    rw [score_loop] at h
    split at h
    · rename_i hp
      split at h
      · exact ih h s hs
      · rename_i emb hemb
        split at h
        · rename_i hlen
          split at h
          · rename_i l2 hrec
            injection h with h2
            rw [← h2] at hs
            rcases List.mem_cons.mp hs with h1 | h1
            · rw [h1]
              exact hp
            · exact ih hrec s h1
          · exact Except.noConfusion h
        · exact Except.noConfusion h
    · exact ih h s hs

/-- Unpacking `passes_filters ... = true` into the four membership facts the
specification states (for the truthy, i.e. active, form of each filter). -/
lemma passes_filters_spec {job_level : Option String} {duration_max : Option Int}
    {languages : Option (List String)} {test_type : Option String} {a : Assessment}
    (hp : passes_filters job_level duration_max languages test_type a = true) :
    (∀ jl, job_level = some jl → jl ≠ "" → jl ∈ a.job_levels.getD []) ∧
    (∀ d, duration_max = some d →
        (_parse_duration (a.duration.getD "0 minutes") : Int) ≤ d) ∧
    (∀ ls, languages = some ls → ls ≠ [] →
        ∃ lang ∈ ls, lang ∈ a.languages.getD []) ∧
    (∀ tt, test_type = some tt → tt ≠ "" → a.test_type = some tt) := by
  simp only [passes_filters, Bool.and_eq_true] at hp
  obtain ⟨⟨⟨h1, h2⟩, h3⟩, h4⟩ := hp
  refine ⟨?_, ?_, ?_, ?_⟩
  · intro jl hjl hne
    rw [hjl] at h1
    simp only [jobLevelOk, Bool.or_eq_true, decide_eq_true_eq] at h1
    rcases h1 with h1 | h1
    · exact absurd h1 hne
    · exact List.elem_iff.mp h1
  · intro d hd
    rw [hd] at h2
    simp only [durationOk, Bool.not_eq_eq_eq_not, Bool.not_true, decide_eq_false_iff_not,
      not_lt] at h2
    exact h2
  · intro ls hls hne
    rw [hls] at h3
    simp only [languagesOk, Bool.or_eq_true, List.isEmpty_iff, List.any_eq_true] at h3
    rcases h3 with h3 | ⟨lang, hlang, hmemb⟩
    · exact absurd h3 hne
    · exact ⟨lang, hlang, List.elem_iff.mp hmemb⟩
  · intro tt htt hne
    rw [htt] at h4
    simp only [testTypeOk, Bool.or_eq_true, decide_eq_true_eq] at h4
    rcases h4 with h4 | h4
    · exact absurd h4 hne
    · exact h4

lemma get_recommendations_eq_ok {encode : String → List ℚ} {sim : List ℚ → List ℚ → ℚ}
    {query : String} {job_level : Option String} {duration_max : Option Int}
    {languages : Option (List String)} {test_type : Option String}
    {top_n : Int} {catalog : Catalog} {res : List Scored}
    (hres : get_recommendations encode sim query job_level duration_max languages
        test_type top_n catalog = .ok res) :
    ∃ l, score_loop sim (encode query) job_level duration_max languages test_type
        (catalog.assessments.getD []) = .ok l ∧
      res = pySliceTo top_n (List.insertionSort simGe l) := by
  unfold get_recommendations at hres
  cases hsc : score_loop sim (encode query) job_level duration_max languages test_type
      (catalog.assessments.getD []) with
  | ok l =>
    rw [hsc] at hres
    simp only [Except.map, Except.ok.injEq] at hres
    exact ⟨l, rfl, hres.symm⟩
  | error e =>
    rw [hsc] at hres
    simp [Except.map] at hres

/-- Claim C1: every item in the list returned by `get_recommendations`
satisfies all active filters — its `job_levels` contains the `job_level`
filter, its parsed duration is at most `max_duration`, its languages
intersect the requested languages, and its `test_type` equals the
`test_type` filter.  A filter is active when its value is truthy in the
Python sense (non-`None`, and non-empty for the string and list filters),
which is exactly the condition the code tests. -/
theorem C1_results_satisfy_filters
    (encode : String → List ℚ) (sim : List ℚ → List ℚ → ℚ) (query : String)
    (job_level : Option String) (duration_max : Option Int)
    (languages : Option (List String)) (test_type : Option String)
    (top_n : Int) (catalog : Catalog) (res : List Scored)
    (hres : get_recommendations encode sim query job_level duration_max languages
        test_type top_n catalog = .ok res) :
    ∀ s ∈ res,
      (∀ jl, job_level = some jl → jl ≠ "" → jl ∈ s.assessment.job_levels.getD []) ∧
      (∀ d, duration_max = some d →
          (_parse_duration (s.assessment.duration.getD "0 minutes") : Int) ≤ d) ∧
      (∀ ls, languages = some ls → ls ≠ [] →
          ∃ lang ∈ ls, lang ∈ s.assessment.languages.getD []) ∧
      (∀ tt, test_type = some tt → tt ≠ "" → s.assessment.test_type = some tt) := by
  intro s hs
  obtain ⟨l, hl, hslice⟩ := get_recommendations_eq_ok hres
  have hmem : s ∈ List.insertionSort simGe l :=
    (pySliceTo_sublist top_n _).subset (hslice ▸ hs)
  have hmem2 : s ∈ l := (List.mem_insertionSort simGe).mp hmem
  exact passes_filters_spec (score_loop_ok_filters hl s hmem2)

/-- Witness for C1 at a concrete query with all four filters active. -/
theorem C1_witness :
    "Manager" ∈ sampleManager.job_levels.getD [] ∧
    (_parse_duration (sampleManager.duration.getD "0 minutes") : Int) ≤ 60 ∧
    (∃ lang ∈ ["english"], lang ∈ sampleManager.languages.getD []) ∧
    sampleManager.test_type = some "cognitive" := by
  have h := C1_results_satisfy_filters enc1 sim0 "q" (some "Manager") (some 60)
      (some ["english"]) (some "cognitive") 5 catPair [⟨sampleManager, 0⟩] rfl
  have h2 := h ⟨sampleManager, 0⟩ (by simp)
  exact ⟨h2.1 "Manager" rfl (by decide), h2.2.1 60 rfl,
    h2.2.2.1 ["english"] rfl (by decide), h2.2.2.2 "cognitive" rfl (by decide)⟩

lemma score_loop_of_no_survivor {sim : List ℚ → List ℚ → ℚ} {qvec : List ℚ}
    {job_level : Option String} {duration_max : Option Int}
    {languages : Option (List String)} {test_type : Option String}
    {as : List Assessment}
    (h : ∀ a ∈ as, survives job_level duration_max languages test_type a = false) :
    score_loop sim qvec job_level duration_max languages test_type as = .ok [] := by
  induction as with
  | nil => rfl
  | cons a rest ih =>
    have ha := h a (List.mem_cons_self a rest)
    have hrest := ih fun a2 h2 => h a2 (List.mem_cons_of_mem a h2)
    rw [score_loop]
    by_cases hp : passes_filters job_level duration_max languages test_type a = true
    · have hnone : a.embedding = none := by
        cases hemb : a.embedding with
        | none => rfl
        | some emb => simp [survives, hp, hemb] at ha
      rw [if_pos hp, hnone]
      exact hrest
    · rw [if_neg hp]
      exact hrest

lemma score_loop_of_mismatch {sim : List ℚ → List ℚ → ℚ} {qvec : List ℚ}
    {job_level : Option String} {duration_max : Option Int}
    {languages : Option (List String)} {test_type : Option String}
    {as : List Assessment}
    (h : ∃ a ∈ as, survives job_level duration_max languages test_type a = true ∧
        dim_mismatch qvec a = true) :
    score_loop sim qvec job_level duration_max languages test_type as =
      .error RecError.DimensionMismatchError := by
  induction as with
  | nil => simp at h
  | cons a rest ih =>
    obtain ⟨w, hw, hsv, hmm⟩ := h
    rw [score_loop]
    split
    · rename_i hp
      split
      · rename_i hnone
        refine ih ⟨w, ?_, hsv, hmm⟩
        rcases List.mem_cons.mp hw with h1 | h1
        · rw [h1] at hsv
          simp [survives, hnone] at hsv
        · exact h1
      · rename_i emb hemb
        split
        · rename_i hlen
          have hwrest : w ∈ rest := by
            rcases List.mem_cons.mp hw with h1 | h1
            · rw [h1] at hmm
              simp [dim_mismatch, hemb, hlen] at hmm
            · exact h1
          rw [ih ⟨w, hwrest, hsv, hmm⟩]
        · rfl
    · rename_i hp
      refine ih ⟨w, ?_, hsv, hmm⟩
      rcases List.mem_cons.mp hw with h1 | h1
      · rw [h1] at hsv
        simp [survives, hp] at hsv
      · exact h1

/-- Claim C5: `get_recommendations` never raises when no candidate survives
filtering — it returns the empty sequence — and it raises
`DimensionMismatchError` whenever some surviving candidate carries an
embedding whose dimensionality differs from the query vector. -/
theorem C5_error_contract
    (encode : String → List ℚ) (sim : List ℚ → List ℚ → ℚ) (query : String)
    (job_level : Option String) (duration_max : Option Int)
    (languages : Option (List String)) (test_type : Option String)
    (top_n : Int) (catalog : Catalog) :
    ((∀ a ∈ catalog.assessments.getD [],
        survives job_level duration_max languages test_type a = false) →
      get_recommendations encode sim query job_level duration_max languages test_type
        top_n catalog = .ok []) ∧
    ((∃ a ∈ catalog.assessments.getD [],
        survives job_level duration_max languages test_type a = true ∧
          dim_mismatch (encode query) a = true) →
      get_recommendations encode sim query job_level duration_max languages test_type
        top_n catalog = .error RecError.DimensionMismatchError) := by
  constructor
  · intro h
    unfold get_recommendations
    rw [score_loop_of_no_survivor h]
    simp [Except.map, pySliceTo]
  · intro h
    unfold get_recommendations
    rw [score_loop_of_mismatch h]
    rfl

/-- Witness for C5: a catalog whose only record lacks an embedding gives an
empty result, and a catalog holding a record with a 2-dimensional embedding
against a 1-dimensional query vector raises. -/
theorem C5_witness :
    get_recommendations enc1 sim0 "q" none none none none 5
        ⟨some [sampleNoEmb], none⟩ = .ok [] ∧
    get_recommendations enc1 sim0 "q" none none none none 5
        ⟨some [sampleBadDim], none⟩ = .error RecError.DimensionMismatchError := by
  constructor
  · exact (C5_error_contract enc1 sim0 "q" none none none none 5
      ⟨some [sampleNoEmb], none⟩).1 (by decide)
  · exact (C5_error_contract enc1 sim0 "q" none none none none 5
      ⟨some [sampleBadDim], none⟩).2 ⟨sampleBadDim, by decide, by decide, by decide⟩

/-- Counterexample to claim C2 as stated: `top_n = -1` is `≤ 0`, yet on a
catalog with two survivors the call returns one item, not the empty
sequence — Python `l[:-1]` drops only the last element. -/
theorem C2_counterexample :
    (-1 : Int) ≤ 0 ∧
    get_recommendations enc1 sim0 "q" none none none none (-1) catPair =
      .ok [⟨sampleManager, 0⟩] :=
  ⟨by decide, rfl⟩

/-- Claim C2 (amended): when the survivor scan succeeds with survivor list
`l`, then `top_n = 0` returns the empty sequence; any `top_n` at least the
survivor count returns exactly all survivors without padding (a
permutation of `l`, of the same length); and a negative `top_n` follows
Python slice semantics, returning all but the last `|top_n|` of the sorted
survivors. -/
theorem C2_amended_topn
    (encode : String → List ℚ) (sim : List ℚ → List ℚ → ℚ) (query : String)
    (job_level : Option String) (duration_max : Option Int)
    (languages : Option (List String)) (test_type : Option String)
    (catalog : Catalog) (l : List Scored)
    (hl : score_loop sim (encode query) job_level duration_max languages test_type
        (catalog.assessments.getD []) = .ok l) :
    (get_recommendations encode sim query job_level duration_max languages test_type
        0 catalog = .ok []) ∧
    (∀ top_n : Int, (l.length : Int) ≤ top_n →
        ∃ res, get_recommendations encode sim query job_level duration_max languages
            test_type top_n catalog = .ok res ∧ res.length = l.length ∧ res.Perm l) ∧
    (∀ top_n : Int, top_n < 0 →
        ∃ res, get_recommendations encode sim query job_level duration_max languages
            test_type top_n catalog = .ok res ∧
          res.length = l.length - (-top_n).toNat) := by
  have hget : ∀ top_n : Int,
      get_recommendations encode sim query job_level duration_max languages test_type
        top_n catalog = .ok (pySliceTo top_n (List.insertionSort simGe l)) := by
    intro top_n
    unfold get_recommendations
    rw [hl]
    rfl
  refine ⟨?_, ?_, ?_⟩
  · rw [hget 0]
    simp [pySliceTo]
  · intro top_n htop
    have h0 : (0 : Int) ≤ top_n := by omega
    have heq : pySliceTo top_n (List.insertionSort simGe l) = List.insertionSort simGe l := by
      rw [pySliceTo, if_pos h0]
      apply List.take_of_length_le
      rw [List.length_insertionSort]
      omega
    refine ⟨_, hget top_n, ?_, ?_⟩
    · rw [heq, List.length_insertionSort]
    · rw [heq]
      exact List.perm_insertionSort simGe l
  · intro top_n htop
    have h0 : ¬ (0 : Int) ≤ top_n := by omega
    refine ⟨_, hget top_n, ?_⟩
    rw [pySliceTo, if_neg h0, List.length_take, List.length_insertionSort]
    omega

/-- Witness for C2 (amended) on a two-survivor catalog. -/
theorem C2_witness :
    get_recommendations enc1 sim0 "q" none none none none 0 catPair = .ok [] :=
  (C2_amended_topn enc1 sim0 "q" none none none none catPair
    [⟨sampleManager, 0⟩, ⟨samplePlain, 0⟩] rfl).1

/-- Transcription of the wording of claim C3: the value of the first
maximal run of digit characters in the string (0 when there is none). -/
def spec_firstDigitRun (s : String) : Nat :=
  digitsToNat ((s.data.dropWhile (fun c => !c.isDigit)).takeWhile Char.isDigit)

/-- Counterexample to claim C3 as stated: on `"1 hour 30 minutes"` the code
concatenates every digit and yields 130, while the first run of digits is
1; moreover a record with no duration is rejected when the (legal but
degenerate) filter `max_duration = -1` is set, so "never rejects" does not
hold for every filter value. -/
theorem C3_counterexample :
    _parse_duration "1 hour 30 minutes" = 130 ∧
    spec_firstDigitRun "1 hour 30 minutes" = 1 ∧
    (130 : Nat) ≠ 1 ∧
    durationOk (some (-1)) sampleNoEmb = false :=
  ⟨rfl, rfl, by decide, rfl⟩

/-- Claim C3 (amended): the parser reads the concatenation of every digit
character of the duration field as minutes; an absent, empty, or
digit-free duration yields 0, and with any non-negative `max_duration`
filter set such a record is never rejected on the duration filter. -/
theorem C3_amended_duration_parsing (s : String) (d : Int) (a : Assessment) :
    (_parse_duration s = digitsToNat (s.data.filter Char.isDigit)) ∧
    ((∀ c ∈ s.data, c.isDigit = false) → _parse_duration s = 0) ∧
    (0 ≤ d → (∀ c ∈ (a.duration.getD "").data, c.isDigit = false) →
        durationOk (some d) a = true) := by
  have hconcat : ∀ t : String, _parse_duration t = digitsToNat (t.data.filter Char.isDigit) := by
    intro t
    unfold _parse_duration
    split_ifs with hemp hds
    · have hnil : t.data = [] := by
        rw [String.isEmpty_iff] at hemp
        rw [hemp]
      rw [hnil]
      rfl
    · rw [List.isEmpty_iff] at hds
      rw [hds]
      rfl
    · rfl
  have hzero : ∀ t : String, (∀ c ∈ t.data, c.isDigit = false) → _parse_duration t = 0 := by
    intro t ht
    rw [hconcat t, List.filter_eq_nil_iff.mpr (by simpa using ht)]
    rfl
  refine ⟨hconcat s, hzero s, ?_⟩
  intro hd hfree
  cases hdur : a.duration with
  | none =>
    simp only [durationOk, hdur, Option.getD]
    have : _parse_duration "0 minutes" = 0 := rfl
    rw [this]
    simp
    omega
  | some s2 =>
    rw [hdur] at hfree
    simp only [Option.getD] at hfree
    simp only [durationOk, hdur, Option.getD]
    rw [hzero s2 hfree]
    simp
    omega

/-- Witness for C3 (amended) on a digit-free string and a record without a
duration field. -/
theorem C3_witness :
    _parse_duration "no digits here" = 0 ∧ durationOk (some 5) sampleNoEmb = true := by
  refine ⟨(C3_amended_duration_parsing "no digits here" 5 sampleNoEmb).2.1 (by decide),
    (C3_amended_duration_parsing "no digits here" 5 sampleNoEmb).2.2 (by decide) (by decide)⟩

/-- Inserting `x` with `orderedInsert simGe` walks past exactly the
elements of strictly greater similarity, so filtering afterwards for any
one similarity value `q0` either prepends `x` (when `x` has that value) or
leaves the filtered list unchanged. -/
lemma filter_orderedInsert_simClass (q0 : ℚ) (x : Scored) (t : List Scored) :
    (List.orderedInsert simGe x t).filter (fun c => decide (c.similarity = q0)) =
      if x.similarity = q0 then
        x :: t.filter (fun c => decide (c.similarity = q0))
      else t.filter (fun c => decide (c.similarity = q0)) := by
  induction t with
  | nil =>
    by_cases hx : x.similarity = q0 <;> simp [List.orderedInsert, hx]
  | cons y t ih =>
    rw [List.orderedInsert]
    by_cases hr : simGe x y
    · rw [if_pos hr]
      by_cases hx : x.similarity = q0 <;> simp [List.filter_cons, hx]
    · rw [if_neg hr]
      by_cases hx : x.similarity = q0
      · have hy : ¬ y.similarity = q0 := by
          intro hy
          exact hr (by rw [simGe, hy, hx])
        simp [List.filter_cons, hx, hy, ih]
      · by_cases hy : y.similarity = q0 <;> simp [List.filter_cons, hx, hy, ih]

/-- Filtering a stable descending sort for one similarity value returns the
tied elements in their original order. -/
lemma filter_insertionSort_simClass (q0 : ℚ) (l : List Scored) :
    (List.insertionSort simGe l).filter (fun c => decide (c.similarity = q0)) =
      l.filter (fun c => decide (c.similarity = q0)) := by
  induction l with
  | nil => rfl
  | cons x l ih =>
    rw [List.insertionSort, filter_orderedInsert_simClass]
    by_cases hx : x.similarity = q0 <;> simp [List.filter_cons, hx, ih]

/-- Claim C4: the returned list is sorted by similarity in descending order
(each adjacent pair satisfies `score[i] >= score[i+1]`), and candidates
with equal scores keep their original catalog order: for every similarity
value `q0`, the returned candidates with that score form a sublist of the
catalog-ordered survivor list `l` restricted to that score (the sort is
stable, with no secondary key). -/
theorem C4_sorted_descending_stable
    (encode : String → List ℚ) (sim : List ℚ → List ℚ → ℚ) (query : String)
    (job_level : Option String) (duration_max : Option Int)
    (languages : Option (List String)) (test_type : Option String)
    (top_n : Int) (catalog : Catalog) (l : List Scored) (res : List Scored)
    (hl : score_loop sim (encode query) job_level duration_max languages test_type
        (catalog.assessments.getD []) = .ok l)
    (hres : get_recommendations encode sim query job_level duration_max languages
        test_type top_n catalog = .ok res) :
    (∀ i (hi : i + 1 < res.length),
        (res.get ⟨i + 1, hi⟩).similarity ≤ (res.get ⟨i, Nat.lt_of_succ_lt hi⟩).similarity) ∧
    (∀ q0 : ℚ,
        (res.filter (fun c => decide (c.similarity = q0))).Sublist
          (l.filter (fun c => decide (c.similarity = q0)))) := by
  obtain ⟨l2, hl2, hslice⟩ := get_recommendations_eq_ok hres
  rw [hl] at hl2
  have hll : l2 = l := (Except.ok.inj hl2).symm
  rw [hll] at hslice
  constructor
  · intro i hi
    have hsorted : (List.insertionSort simGe l).Pairwise simGe :=
      List.sorted_insertionSort simGe l
    have hres_sorted : res.Pairwise simGe :=
      List.Pairwise.sublist (hslice ▸ pySliceTo_sublist top_n (List.insertionSort simGe l))
        hsorted
    exact List.pairwise_iff_get.mp hres_sorted ⟨i, Nat.lt_of_succ_lt hi⟩ ⟨i + 1, hi⟩
      (Nat.lt_succ_self i)
  · intro q0
    have hsub : res.Sublist (List.insertionSort simGe l) :=
      hslice ▸ pySliceTo_sublist top_n (List.insertionSort simGe l)
    have := hsub.filter (fun c => decide (c.similarity = q0))
    rw [filter_insertionSort_simClass] at this
    exact this

/-- Witness for C4 on a two-survivor catalog with tied scores, truncated to
`top_n = 1`. -/
theorem C4_witness :
    (([⟨sampleManager, 0⟩] : List Scored).filter
        (fun c => decide (c.similarity = (0 : ℚ)))).Sublist
      (([⟨sampleManager, 0⟩, ⟨samplePlain, 0⟩] : List Scored).filter
        (fun c => decide (c.similarity = (0 : ℚ)))) := by
  have h := C4_sorted_descending_stable enc1 sim0 "q" none none none none 1 catPair
    [⟨sampleManager, 0⟩, ⟨samplePlain, 0⟩] [⟨sampleManager, 0⟩] rfl rfl
  exact h.2 0

lemma mem_foldl_insert {x : String} : ∀ (l : List String) (acc : Finset String),
    x ∈ l.foldl (fun ac y => insert y ac) acc ↔ x ∈ acc ∨ x ∈ l := by
  intro l
  induction l with
  | nil => simp
  | cons y l ih =>
    intro acc
    rw [List.foldl_cons, ih]
    simp [Finset.mem_insert]
    tauto

lemma mem_addFeatures {x : String} {acc : Finset String} {fv : FieldVal} :
    x ∈ addFeatures acc fv ↔ x ∈ acc ∨ x ∈ fieldValues fv := by
  cases fv with
  | missing => simp [addFeatures, fieldValues]
  | str s =>
    simp [addFeatures, fieldValues, Finset.mem_insert]
    tauto
  | list l => simp [addFeatures, fieldValues, mem_foldl_insert]

lemma mem_foldl_addFeatures {x : String} : ∀ (recs : List FieldVal) (acc : Finset String),
    x ∈ recs.foldl addFeatures acc ↔ x ∈ acc ∨ ∃ fv ∈ recs, x ∈ fieldValues fv := by
  intro recs
  induction recs with
  | nil => simp
  | cons fv recs ih =>
    intro acc
    rw [List.foldl_cons, ih, mem_addFeatures]
    simp
    tauto

/-- Claim C6: for every non-empty top-k list, the diversity score is the
number of unique field values divided by k (the length of the list), where
a list-valued field contributes every element of every list to the
unique-value set; a single-item list with a single-valued field scores
`1/1 = 1`. -/
theorem C6_diversity_score (recs : List FieldVal) (h : recs ≠ []) :
    diversity_score recs = ((recs.foldl addFeatures ∅).card : ℚ) / (recs.length : ℚ) ∧
    (∀ x, x ∈ recs.foldl addFeatures ∅ ↔ ∃ fv ∈ recs, x ∈ fieldValues fv) ∧
    (∀ s, diversity_score [FieldVal.str s] = 1) ∧
    (∀ v, diversity_score [FieldVal.list [v]] = 1) := by
  refine ⟨?_, ?_, ?_, ?_⟩
  · rw [diversity_score, if_neg (by simpa [List.isEmpty_iff] using h)]
  · intro x
    rw [mem_foldl_addFeatures]
    simp
  · intro s
    rw [diversity_score]
    norm_num [addFeatures]
  · intro v
    rw [diversity_score]
    norm_num [addFeatures]

/-- Witness for C6 on a one-element list. -/
theorem C6_witness : diversity_score [FieldVal.str "cognitive"] = 1 :=
  (C6_diversity_score [FieldVal.str "cognitive"] (by decide)).2.2.1 "cognitive"

/-- Claim C7: `precision_at_k` is the fraction of the first
`min k (number of predictions)` predicted items that are relevant; when
fewer than `k` predictions were returned the divisor is the returned
count, never the requested `k`. -/
theorem C7_precision_at_k (relevance predictions : List Nat) (k : Nat)
    (hk : 1 ≤ k) (hne : predictions ≠ [])
    (hrange : ∀ i ∈ predictions.take (min k predictions.length), i < relevance.length) :
    precision_at_k relevance predictions k =
      some ((((predictions.take (min k predictions.length)).filter
          (fun i => relevance.getD i 0 == 1)).length : ℚ) /
        ((min k predictions.length : Nat) : ℚ)) ∧
    (predictions.length < k →
      precision_at_k relevance predictions k =
        some ((((predictions.take predictions.length).filter
            (fun i => relevance.getD i 0 == 1)).length : ℚ) /
          ((predictions.length : Nat) : ℚ))) := by
  have hk2 : (if predictions.length < k then predictions.length else k) =
      min k predictions.length := by
    split <;> omega
  have hmain : precision_at_k relevance predictions k =
      some ((((predictions.take (min k predictions.length)).filter
          (fun i => relevance.getD i 0 == 1)).length : ℚ) /
        ((min k predictions.length : Nat) : ℚ)) := by
    simp only [precision_at_k, hk2]
    rw [if_pos]
    rw [List.all_eq_true]
    intro i hi
    exact decide_eq_true (hrange i hi)
  refine ⟨hmain, fun hlt => ?_⟩
  rw [hmain]
  have hm : min k predictions.length = predictions.length := by omega
  rw [hm]

/-- Witness for C7: two predictions, `k = 1`, the first prediction
relevant. -/
theorem C7_witness : precision_at_k [1, 0] [0, 1] 1 = some 1 := by
  have h := (C7_precision_at_k [1, 0] [0, 1] 1 (by decide) (by decide) (by decide)).1
  rw [h]
  norm_num

/-- Claim C8: when the embeddings flag is already set to true, running the
embedding-generation step again is a no-op — the catalog (every record and
the flag) is unchanged and no write to storage occurs. -/
theorem C8_process_embeddings_idempotent (encode : String → List ℚ) (c : Catalog)
    (h : c.embeddings = some true) :
    process_embeddings encode c = (c, false) := by
  unfold process_embeddings
  rw [h]

/-- Witness for C8 on a one-record catalog whose flag is true. -/
theorem C8_witness :
    process_embeddings enc1 ⟨some [sampleManager], some true⟩ =
      (⟨some [sampleManager], some true⟩, false) :=
  C8_process_embeddings_idempotent enc1 ⟨some [sampleManager], some true⟩ rfl

/-- Claim C9: a recommendation call leaves the catalog state unchanged —
the assessments (with their embeddings) and the embeddings flag are the
same before and after, and the returned value is exactly the pure
recommendation result.  The method body only reads the catalog, so all
three parts hold definitionally. -/
theorem C9_get_recommendations_frame
    (encode : String → List ℚ) (sim : List ℚ → List ℚ → ℚ) (query : String)
    (job_level : Option String) (duration_max : Option Int)
    (languages : Option (List String)) (test_type : Option String)
    (top_n : Int) (catalog : Catalog) :
    (get_recommendations_st encode sim query job_level duration_max languages test_type
        top_n catalog).2 = catalog ∧
    (get_recommendations_st encode sim query job_level duration_max languages test_type
        top_n catalog).2.assessments = catalog.assessments ∧
    (get_recommendations_st encode sim query job_level duration_max languages test_type
        top_n catalog).2.embeddings = catalog.embeddings ∧
    (get_recommendations_st encode sim query job_level duration_max languages test_type
        top_n catalog).1 =
      get_recommendations encode sim query job_level duration_max languages test_type
        top_n catalog :=
  ⟨rfl, rfl, rfl, rfl⟩

lemma clean_foldl_append : ∀ (recs : List RawRec) (acc : List CleanedAssessment),
    recs.foldl
      (fun cleaned r =>
        match r.assessment with
        | some a => cleaned ++ [clean_one a]
        | none => cleaned) acc =
      acc ++ (recs.filterMap RawRec.assessment).map clean_one := by
  intro recs
  induction recs with
  | nil => simp
  | cons r recs ih =>
    intro acc
    cases hr : r.assessment with
    | some a => simp [List.foldl_cons, hr, ih, List.filterMap_cons]
    | none => simp [List.foldl_cons, hr, ih, List.filterMap_cons]

/-- Claim C10: `clean_recommendations` returns at most 10 entries, keeps
exactly the entries with an `assessment` key among the first 10 (in their
original order), and maps each kept entry to the fixed-shape record, in
which `duration` is the parsed minutes with 0 substituted when parsing
fails, and a string `test_type` is wrapped into a one-element list. -/
theorem C10_clean_recommendations (recs : List RawRec) :
    clean_recommendations recs =
      ((recs.take 10).filterMap RawRec.assessment).map clean_one ∧
    (clean_recommendations recs).length ≤ 10 ∧
    (∀ a : Assessment, ∀ s : String, a.test_type = some s →
        (clean_one a).test_type = [s]) ∧
    (∀ a : Assessment, parse_duration (a.duration.getD "0") = none →
        (clean_one a).duration = 0) ∧
    (∀ a : Assessment, ∀ n : Nat, parse_duration (a.duration.getD "0") = some n →
        (clean_one a).duration = n) := by
  have hmain : clean_recommendations recs =
      ((recs.take 10).filterMap RawRec.assessment).map clean_one := by
    unfold clean_recommendations
    rw [clean_foldl_append]
    simp
  refine ⟨hmain, ?_, ?_, ?_, ?_⟩
  · rw [hmain, List.length_map]
    calc ((recs.take 10).filterMap RawRec.assessment).length
        ≤ (recs.take 10).length := List.length_filterMap_le _ _
      _ ≤ 10 := List.length_take_le 10 recs
  · intro a s hs
    simp [clean_one, hs]
  · intro a hn
    simp [clean_one, hn]
  · intro a n hn
    simp [clean_one, hn]

/-- Witness for C10 on a two-entry list, one entry lacking the key. -/
theorem C10_witness :
    clean_recommendations [⟨some sampleManager⟩, ⟨none⟩] = [clean_one sampleManager] ∧
    (clean_one sampleManager).test_type = ["cognitive"] ∧
    (clean_one sampleManager).duration = 30 := by
  have h := C10_clean_recommendations [⟨some sampleManager⟩, ⟨none⟩]
  exact ⟨h.1.trans rfl, h.2.2.1 sampleManager "cognitive" rfl,
    h.2.2.2.2 sampleManager 30 rfl⟩

end SHL
